import Mathlib

/-!
# sawRobotIO1394 data-collection application

A shallow embedding of `applications/data-collection/main.cpp` and the
properties of its acquisition loop, clock bookkeeping and CSV output.

Modelling conventions

* `double` values are read in exact arithmetic: finite values are rationals,
  and the result of a division by zero (an IEEE infinity or NaN) is the
  separate value `Dbl.nonFinite`.
* `size_t` and `uint` values are natural numbers.  No counter of the program
  can wrap: `iter` and `progress` never exceed `numberOfIterations`.
* Everything the program obtains from its collaborators (option parsing, the
  file system, the XML loader, the time server, the bus and the robot
  accessors for the configured actuator) is an input, gathered in `Env`.
* `port->Read()` either returns or throws `std::runtime_error`; the other
  collaborator calls and the `new` expressions are taken to return normally.
* Every externally visible action is recorded, in program order, in a trace
  of `Event`s.
-/

namespace DataCollection

/-! ## Values -/

/-- A `double` in the exact-arithmetic reading. -/
inductive Dbl where
  | val (q : ℚ)
  | nonFinite
  deriving DecidableEq

/-- The C++ expression `a / b` on finite doubles. -/
def Dbl.quot (a b : ℚ) : Dbl :=
  if b = 0 then Dbl.nonFinite else Dbl.val (a / b)

/-- The C++ expression `x + c` for a finite constant `c`. -/
def Dbl.plus (x : Dbl) (c : ℚ) : Dbl :=
  match x with
  | Dbl.val q => Dbl.val (q + c)
  | Dbl.nonFinite => Dbl.nonFinite

/-- Storage returned by `new T[n]`: `n` entries, each indeterminate (`none`)
until it has been assigned. -/
def fresh {α : Type} (n : Nat) : Array (Option α) := mkArray n none

/-- The assignment `a[i] = v`, for `i` within the array. -/
def write {α : Type} (a : Array (Option α)) (i : Nat) (v : α) : Array (Option α) :=
  a.setD i (some v)

/-- The value of the expression `a[i]`, for `i` within the array. -/
def read {α : Type} (a : Array (Option α)) (i : Nat) : Option α :=
  a.getD i none

/-- The thirteen parallel arrays allocated at lines 75-87. -/
structure Arrays where
  allIterations : Array (Option Nat)
  allActuatorTimeStamps : Array (Option Dbl)
  allCPUTimes : Array (Option Dbl)
  allTimesDiff : Array (Option Dbl)
  allPositions : Array (Option Dbl)
  allFpgaVelocities : Array (Option Dbl)
  allFpgaVelocitiesLowRes : Array (Option Dbl)
  allSoftwareVelocities : Array (Option Dbl)
  allSoftwareDxDtFPGA : Array (Option Dbl)
  allSoftwareDxDtCPU : Array (Option Dbl)
  allLatched : Array (Option Bool)
  allFpgaVelocitiesRaw : Array (Option Nat)
  allFpgaVelocitiesLowResRaw : Array (Option Nat)

/-- The arrays right after allocation. -/
def Arrays.fresh (n : Nat) : Arrays :=
  { allIterations := DataCollection.fresh n
    allActuatorTimeStamps := DataCollection.fresh n
    allCPUTimes := DataCollection.fresh n
    allTimesDiff := DataCollection.fresh n
    allPositions := DataCollection.fresh n
    allFpgaVelocities := DataCollection.fresh n
    allFpgaVelocitiesLowRes := DataCollection.fresh n
    allSoftwareVelocities := DataCollection.fresh n
    allSoftwareDxDtFPGA := DataCollection.fresh n
    allSoftwareDxDtCPU := DataCollection.fresh n
    allLatched := DataCollection.fresh n
    allFpgaVelocitiesRaw := DataCollection.fresh n
    allFpgaVelocitiesLowResRaw := DataCollection.fresh n }

/-! ## Environment -/

/-- What the time server and the robot accessors return, for the configured
actuator, during one loop iteration. -/
structure Reading where
  cpuTime : ℚ
  actuatorTimeStamp : ℚ
  encoderPosition : ℚ
  encoderVelocity : ℚ
  encoderVelocityLowRes : ℚ
  encoderVelocitySoftware : ℚ
  encoderVelocityLatched : Bool
  encoderVelocityRaw : Nat
  encoderVelocityLowResRaw : Nat

/-- The inputs of one run of the program. -/
structure Env where
  /-- Result of `options.Parse`. -/
  parseOk : Bool
  /-- Value of option `-n`. -/
  numberOfIterations : Nat
  /-- Result of `cmnPath::Exists(configFile)`. -/
  configExists : Bool
  /-- Value of `config.Robots.size()` after `osaXML1394ConfigurePort`. -/
  robots : Nat
  /-- Whether the read at line 110 throws `std::runtime_error`. -/
  warmupReadThrows : Bool
  /-- Whether the read at line 129 throws in iteration `iter`. -/
  readThrows : Nat → Bool
  /-- The values obtained in iteration `iter`. -/
  reading : Nat → Reading

/-- Externally visible actions of the program. -/
inductive Event where
  /-- Lines 61-62: the parse error and the usage text on `stderr`. -/
  | usage
  /-- Line 67: the message that the configuration file cannot be found. -/
  | cantFindFile
  /-- Lines 70-71: the configuration file and port on `stdout`. -/
  | showConfig
  /-- Lines 74-87: the thirteen `new T[n]`. -/
  | allocate (n : Nat)
  /-- Lines 89-91: `osaXML1394ConfigurePort`. -/
  | loadConfig
  /-- Line 95: the message that the configuration file defines no robot. -/
  | noRobot
  /-- Line 99: the message that the configuration file defines several robots. -/
  | severalRobots
  /-- Line 102: `new osaRobot1394`. -/
  | createRobot
  /-- Lines 105-106: `new osaPort1394` and `AddRobot`. -/
  | createPort
  /-- Line 110: the read before the loop. -/
  | warmupRead
  /-- Line 112: the message that an exception was caught. -/
  | caught
  /-- Line 115: `CalibrateEncoderOffsetsFromPots`. -/
  | calibrate
  /-- Line 117: the message that data collection starts. -/
  | start
  /-- Line 129: `port->Read()` in iteration `iter`. -/
  | busRead (iter : Nat)
  /-- Line 191: one progress dot. -/
  | dot
  /-- Line 196: `osaSleep`. -/
  | sleep
  /-- Lines 198-246: the CSV file is opened, written and closed. -/
  | save
  deriving DecidableEq

/-! ## Acquisition loop -/

/-- The variables live across iterations of the main loop. -/
structure LoopState where
  iter : Nat
  progress : Nat
  oldPos : ℚ
  fpgaTime : ℚ
  oldCPUTime : ℚ
  mem : Arrays
  trace : List Event

/-- Lines 131-196 followed by `++iter`: one iteration after its read has
returned. -/
def loopBody (env : Env) (percent : Nat) (st : LoopState) : LoopState :=
  let iter := st.iter
  let currentCPUTime := (env.reading iter).cpuTime
  let currentActuatorTimeStamp := (env.reading iter).actuatorTimeStamp
  let fpgaTime := st.fpgaTime + currentActuatorTimeStamp
  let currentEncoderPosition := (env.reading iter).encoderPosition
  let progress := st.progress + 1
  { iter := iter + 1
    progress := if progress = percent then 0 else progress
    oldPos := currentEncoderPosition
    fpgaTime := fpgaTime
    oldCPUTime := currentCPUTime
    mem :=
      { allIterations := write st.mem.allIterations iter iter
        allCPUTimes := write st.mem.allCPUTimes iter (Dbl.val currentCPUTime)
        allActuatorTimeStamps :=
          write st.mem.allActuatorTimeStamps iter (Dbl.val currentActuatorTimeStamp)
        allTimesDiff := write st.mem.allTimesDiff iter (Dbl.val (currentCPUTime - fpgaTime))
        allPositions := write st.mem.allPositions iter (Dbl.val currentEncoderPosition)
        allFpgaVelocities :=
          write st.mem.allFpgaVelocities iter (Dbl.val (env.reading iter).encoderVelocity)
        allFpgaVelocitiesLowRes :=
          write st.mem.allFpgaVelocitiesLowRes iter
            (Dbl.val (env.reading iter).encoderVelocityLowRes)
        allSoftwareVelocities :=
          write st.mem.allSoftwareVelocities iter
            (Dbl.val (env.reading iter).encoderVelocitySoftware)
        allSoftwareDxDtFPGA :=
          write st.mem.allSoftwareDxDtFPGA iter
            (Dbl.plus (Dbl.quot (currentEncoderPosition - st.oldPos) currentActuatorTimeStamp)
              0.01)
        allSoftwareDxDtCPU :=
          write st.mem.allSoftwareDxDtCPU iter
            (Dbl.quot (currentEncoderPosition - st.oldPos) (currentCPUTime - st.oldCPUTime))
        allLatched := write st.mem.allLatched iter (env.reading iter).encoderVelocityLatched
        allFpgaVelocitiesRaw :=
          write st.mem.allFpgaVelocitiesRaw iter (env.reading iter).encoderVelocityRaw
        allFpgaVelocitiesLowResRaw :=
          write st.mem.allFpgaVelocitiesLowResRaw iter
            (env.reading iter).encoderVelocityLowResRaw }
    trace :=
      st.trace ++ [Event.busRead iter] ++ (if progress = percent then [Event.dot] else [])
        ++ [Event.sleep] }

/-- How the main loop is left. -/
inductive LoopResult where
  /-- The condition `iter < n` became false. -/
  | completed (st : LoopState)
  /-- The read at line 129 threw; nothing in the loop catches it. -/
  | thrown (st : LoopState)

/-- The state in which the loop is left. -/
def LoopResult.state : LoopResult → LoopState
  | LoopResult.completed st => st
  | LoopResult.thrown st => st

/-- Lines 126-197: `for (; iter < n; ++iter)` from the state `st`. -/
def acquisitionLoop (env : Env) (percent n : Nat) (st : LoopState) : LoopResult :=
  if st.iter < n then
    if env.readThrows st.iter then
      LoopResult.thrown { st with trace := st.trace ++ [Event.busRead st.iter] }
    else
      acquisitionLoop env percent n (loopBody env percent st)
  else
    LoopResult.completed st
termination_by n - st.iter
decreasing_by
  simp only [loopBody]
  omega

/-! ## Serialisation -/

/-- A value written to the CSV file by `operator<<`. -/
inductive Value where
  | size (n : Nat)
  | real (x : Dbl)
  | flag (b : Bool)
  | quadlet (n : Nat)
  deriving DecidableEq

/-- Lines 210-223: the header row. -/
def csvHeader : List String :=
  ["iteration", "cpu-time", "fpga-time", "fpga-dtime", "encoder-pos", "fpga-velocities",
   "fpga-velocities-low-res", "software-velocities", "dx/dt-fpga", "dx/dt-cpu", "latched",
   "fpga-raw", "fpga-low-res-raw"]

/-- Lines 230-243: the row written for index `iter`; a cell is `none` when
the entry read was never assigned. -/
def csvRow (a : Arrays) (iter : Nat) : List (Option Value) :=
  [ (read a.allIterations iter).map Value.size,
    (read a.allCPUTimes iter).map Value.real,
    (read a.allTimesDiff iter).map Value.real,
    (read a.allActuatorTimeStamps iter).map Value.real,
    (read a.allPositions iter).map Value.real,
    (read a.allFpgaVelocities iter).map Value.real,
    (read a.allFpgaVelocitiesLowRes iter).map Value.real,
    (read a.allSoftwareVelocities iter).map Value.real,
    (read a.allSoftwareDxDtFPGA iter).map Value.real,
    (read a.allSoftwareDxDtCPU iter).map Value.real,
    (read a.allLatched iter).map Value.flag,
    (read a.allFpgaVelocitiesRaw iter).map Value.quadlet,
    (read a.allFpgaVelocitiesLowResRaw iter).map Value.quadlet ]

/-- Lines 227-244: `for (; iter < n; ++iter)` appending one row per index to
the rows `out` already written. -/
def csvLoop (a : Arrays) (n iter : Nat) (out : List (List (Option Value))) :
    List (List (Option Value)) :=
  if iter < n then csvLoop a n (iter + 1) (out ++ [csvRow a iter]) else out
termination_by n - iter

/-- The CSV file. -/
structure CsvFile where
  header : List String
  rows : List (List (Option Value))

/-! ## The program -/

/-- How the process ends. -/
inductive Status where
  /-- Function `main` returned `code`. -/
  | returned (code : Int)
  /-- An exception left `main`: `std::terminate`. -/
  | terminated
  deriving DecidableEq

/-- The exit status seen by the parent process: the low eight bits of the
value returned by `main`. -/
def Status.exitStatus : Status → Option Int
  | Status.returned code => some (code % 256)
  | Status.terminated => none

/-- What one run of the program did. -/
structure Run where
  status : Status
  trace : List Event
  /-- The arrays as the program left them; `none` when never allocated. -/
  mem : Option Arrays
  /-- The CSV file; `none` when never written. -/
  file : Option CsvFile

/-- Lines 70-117: the trace from the first message to the start of the loop. -/
def setupTrace (env : Env) : List Event :=
  [Event.showConfig, Event.allocate env.numberOfIterations, Event.loadConfig,
   Event.createRobot, Event.createPort, Event.warmupRead]
    ++ (if env.warmupReadThrows then [Event.caught] else [])
    ++ [Event.calibrate, Event.start]

/-- Lines 75-87 and 119-126: the arrays and the loop variables on entry of the
loop. -/
def initState (env : Env) : LoopState :=
  { iter := 0
    progress := 0
    oldPos := 0
    fpgaTime := 0
    oldCPUTime := 0
    mem := Arrays.fresh env.numberOfIterations
    trace := setupTrace env }

/-- The function `main`. -/
def main (env : Env) : Run :=
  if env.parseOk = false then
    { status := Status.returned (-1), trace := [Event.usage], mem := none, file := none }
  else if env.configExists = false then
    { status := Status.returned (-1), trace := [Event.cantFindFile], mem := none, file := none }
  else if env.robots = 0 then
    { status := Status.returned (-1)
      trace := [Event.showConfig, Event.allocate env.numberOfIterations, Event.loadConfig,
                Event.noRobot]
      mem := some (Arrays.fresh env.numberOfIterations)
      file := none }
  else if env.robots ≠ 1 then
    { status := Status.returned (-1)
      trace := [Event.showConfig, Event.allocate env.numberOfIterations, Event.loadConfig,
                Event.severalRobots]
      mem := some (Arrays.fresh env.numberOfIterations)
      file := none }
  else
    match acquisitionLoop env (env.numberOfIterations / 100) env.numberOfIterations
        (initState env) with
    | LoopResult.thrown st =>
      { status := Status.terminated, trace := st.trace, mem := some st.mem, file := none }
    | LoopResult.completed st =>
      { status := Status.returned 0
        trace := st.trace ++ [Event.save]
        mem := some st.mem
        file := some { header := csvHeader, rows := csvLoop st.mem env.numberOfIterations 2000 [] } }

/-- The state after `k` iterations of the main loop: the loop stopped at
`iter = k`. -/
def afterIterations (env : Env) (k : Nat) : LoopResult :=
  acquisitionLoop env (env.numberOfIterations / 100) k (initState env)

/-- Number of progress dots in a trace. -/
def ticks (tr : List Event) : Nat := tr.count Event.dot

/-! ## Reference points for the proofs -/

/-- The loop variables after `k` iterations whose reads all returned. -/
def stateAfter (env : Env) (percent : Nat) : Nat → LoopState
  | 0 => initState env
  | k + 1 => loopBody env percent (stateAfter env percent k)

/-- The encoder position of the iteration before `t`, and `0.0` before the
first one. -/
def previousPosition (env : Env) (t : Nat) : ℚ :=
  if t = 0 then 0 else (env.reading (t - 1)).encoderPosition

/-- The host time of the iteration before `t`, and `0.0` before the first
one. -/
def previousCPUTime (env : Env) (t : Nat) : ℚ :=
  if t = 0 then 0 else (env.reading (t - 1)).cpuTime

/-- The sum of the device elapsed times of iterations `0 .. t`. -/
def cumulativeDeviceTime (env : Env) (t : Nat) : ℚ :=
  ∑ j ∈ Finset.range (t + 1), (env.reading j).actuatorTimeStamp

/-- All thirteen arrays have `n` entries. -/
def Arrays.Capacity (a : Arrays) (n : Nat) : Prop :=
  a.allIterations.size = n ∧ a.allActuatorTimeStamps.size = n ∧ a.allCPUTimes.size = n ∧
  a.allTimesDiff.size = n ∧ a.allPositions.size = n ∧ a.allFpgaVelocities.size = n ∧
  a.allFpgaVelocitiesLowRes.size = n ∧ a.allSoftwareVelocities.size = n ∧
  a.allSoftwareDxDtFPGA.size = n ∧ a.allSoftwareDxDtCPU.size = n ∧ a.allLatched.size = n ∧
  a.allFpgaVelocitiesRaw.size = n ∧ a.allFpgaVelocitiesLowResRaw.size = n

/-- A run that reaches the end of `main`: the options parse, the
configuration file exists and defines one robot, and no read of the loop
throws. -/
def Env.Nominal (env : Env) : Prop :=
  env.parseOk = true ∧ env.configExists = true ∧ env.robots = 1 ∧
    ∀ j, j < env.numberOfIterations → env.readThrows j = false

/-- A run that reaches the loop: the options parse and the configuration file
exists and defines one robot. -/
def Env.Configured (env : Env) : Prop :=
  env.parseOk = true ∧ env.configExists = true ∧ env.robots = 1

/-- The configuration errors: the file is missing, or it defines no robot, or
it defines two or more. -/
def Env.ConfigError (env : Env) : Prop :=
  env.configExists = false ∨ env.robots = 0 ∨ 2 ≤ env.robots

instance (env : Env) : Decidable env.Nominal := by
  unfold Env.Nominal
  exact inferInstance

instance (env : Env) : Decidable env.Configured := by
  unfold Env.Configured
  exact inferInstance

instance (env : Env) : Decidable env.ConfigError := by
  unfold Env.ConfigError
  exact inferInstance

/-- The entries of index `t` hold what iteration `t` computes from the
readings. -/
def Arrays.HoldsSample (a : Arrays) (env : Env) (t : Nat) : Prop :=
  read a.allIterations t = some t ∧
  read a.allCPUTimes t = some (Dbl.val (env.reading t).cpuTime) ∧
  read a.allTimesDiff t
    = some (Dbl.val ((env.reading t).cpuTime - cumulativeDeviceTime env t)) ∧
  read a.allActuatorTimeStamps t = some (Dbl.val (env.reading t).actuatorTimeStamp) ∧
  read a.allPositions t = some (Dbl.val (env.reading t).encoderPosition) ∧
  read a.allFpgaVelocities t = some (Dbl.val (env.reading t).encoderVelocity) ∧
  read a.allFpgaVelocitiesLowRes t = some (Dbl.val (env.reading t).encoderVelocityLowRes) ∧
  read a.allSoftwareVelocities t = some (Dbl.val (env.reading t).encoderVelocitySoftware) ∧
  read a.allSoftwareDxDtFPGA t
    = some (Dbl.plus (Dbl.quot ((env.reading t).encoderPosition - previousPosition env t)
        (env.reading t).actuatorTimeStamp) 0.01) ∧
  read a.allSoftwareDxDtCPU t
    = some (Dbl.quot ((env.reading t).encoderPosition - previousPosition env t)
        ((env.reading t).cpuTime - previousCPUTime env t)) ∧
  read a.allLatched t = some (env.reading t).encoderVelocityLatched ∧
  read a.allFpgaVelocitiesRaw t = some (env.reading t).encoderVelocityRaw ∧
  read a.allFpgaVelocitiesLowResRaw t = some (env.reading t).encoderVelocityLowResRaw

/-- The entries of index `t` have not been assigned. -/
def Arrays.Unwritten (a : Arrays) (t : Nat) : Prop :=
  read a.allIterations t = none ∧ read a.allCPUTimes t = none ∧
  read a.allTimesDiff t = none ∧ read a.allActuatorTimeStamps t = none ∧
  read a.allPositions t = none ∧ read a.allFpgaVelocities t = none ∧
  read a.allFpgaVelocitiesLowRes t = none ∧ read a.allSoftwareVelocities t = none ∧
  read a.allSoftwareDxDtFPGA t = none ∧ read a.allSoftwareDxDtCPU t = none ∧
  read a.allLatched t = none ∧ read a.allFpgaVelocitiesRaw t = none ∧
  read a.allFpgaVelocitiesLowResRaw t = none

instance (a : Arrays) (env : Env) (t : Nat) : Decidable (a.HoldsSample env t) := by
  unfold Arrays.HoldsSample
  exact inferInstance

instance (a : Arrays) (t : Nat) : Decidable (a.Unwritten t) := by
  unfold Arrays.Unwritten
  exact inferInstance

/-! ## Concrete runs -/

/-- Readings of a steadily moving actuator. -/
def sampleReading (j : Nat) : Reading :=
  { cpuTime := (j : ℚ) + 1
    actuatorTimeStamp := 1 / 2
    encoderPosition := 3 * (j : ℚ)
    encoderVelocity := 6
    encoderVelocityLowRes := 6
    encoderVelocitySoftware := 6
    encoderVelocityLatched := false
    encoderVelocityRaw := 40
    encoderVelocityLowResRaw := 41 }

/-- A run of `n` iterations in which every read returns. -/
def envRun (n : Nat) : Env :=
  { parseOk := true
    numberOfIterations := n
    configExists := true
    robots := 1
    warmupReadThrows := false
    readThrows := fun _ => false
    reading := sampleReading }

/-- A run of seven iterations whose read throws in iteration 5. -/
def envReadFail : Env :=
  { envRun 7 with readThrows := fun j => decide (j = 5) }

/-- A run of three iterations on a configuration that defines no robot. -/
def envNoRobot : Env :=
  { envRun 3 with robots := 0 }

/-- A run of three iterations whose configuration file is missing. -/
def envNoFile : Env :=
  { envRun 3 with configExists := false }

/-! ## Arrays -/

theorem size_fresh {α : Type} (n : Nat) : (fresh n : Array (Option α)).size = n := by
  simp [fresh]

theorem size_write {α : Type} (a : Array (Option α)) (i : Nat) (v : α) :
    (write a i v).size = a.size := by
  simp [write]

theorem read_fresh {α : Type} (n j : Nat) : read (fresh n : Array (Option α)) j = none := by
  simp only [read, fresh, Array.getD_eq_get?, Array.getElem?_mkArray]
  split <;> rfl

theorem read_write_ne {α : Type} (a : Array (Option α)) (i j : Nat) (v : α) (hji : j ≠ i) :
    read (write a i v) j = read a j := by
  have hne : i ≠ j := fun e => hji e.symm
  simp only [read, write, Array.getD_eq_get?]
  by_cases h : i < a.size
  · have hset : a.setD i (some v) = a.set ⟨i, h⟩ (some v) := by
      simp [Array.setD, h]
    rw [hset, Array.getElem?_set_ne a ⟨i, h⟩ (some v) hne]
  · have hset : a.setD i (some v) = a := by
      simp [Array.setD, h]
    rw [hset]

theorem read_write_eq {α : Type} (a : Array (Option α)) (i n : Nat) (v : α) (hs : a.size = n)
    (h : i < n) : read (write a i v) i = some v := by
  subst hs
  simp [read, write, Array.getElem?_setD_eq, h]

/-! ## The loop variables after `k` iterations -/

theorem stateAfter_iter (env : Env) (p k : Nat) : (stateAfter env p k).iter = k := by
  induction k with
  | zero => rfl
  | succ k ih => simp [stateAfter, loopBody, ih]

theorem stateAfter_fpgaTime (env : Env) (p k : Nat) :
    (stateAfter env p k).fpgaTime
      = ∑ j ∈ Finset.range k, (env.reading j).actuatorTimeStamp := by
  induction k with
  | zero => simp [stateAfter, initState]
  | succ k ih => simp [stateAfter, loopBody, ih, Finset.sum_range_succ, stateAfter_iter]

theorem stateAfter_oldPos (env : Env) (p k : Nat) :
    (stateAfter env p k).oldPos = previousPosition env k := by
  cases k with
  | zero => simp [stateAfter, initState, previousPosition]
  | succ k => simp [stateAfter, loopBody, previousPosition, stateAfter_iter]

theorem stateAfter_oldCPUTime (env : Env) (p k : Nat) :
    (stateAfter env p k).oldCPUTime = previousCPUTime env k := by
  cases k with
  | zero => simp [stateAfter, initState, previousCPUTime]
  | succ k => simp [stateAfter, loopBody, previousCPUTime, stateAfter_iter]

theorem stateAfter_capacity (env : Env) (p k : Nat) :
    (stateAfter env p k).mem.Capacity env.numberOfIterations := by
  induction k with
  | zero => simp [stateAfter, initState, Arrays.Capacity, Arrays.fresh, size_fresh]
  | succ k ih =>
    simpa [stateAfter, loopBody, Arrays.Capacity, size_write] using ih

theorem stateAfter_unwritten (env : Env) (p k t : Nat) (h : k ≤ t) :
    (stateAfter env p k).mem.Unwritten t := by
  induction k with
  | zero => simp [stateAfter, initState, Arrays.Unwritten, Arrays.fresh, read_fresh]
  | succ k ih =>
    have ih := ih (by omega)
    have hc := stateAfter_capacity env p k
    have hne : t ≠ k := by omega
    simp only [Arrays.Unwritten] at ih ⊢
    simp only [stateAfter, loopBody, stateAfter_iter, read_write_ne _ _ _ _ hne]
    exact ih

theorem stateAfter_holds (env : Env) (p k t : Nat) (ht : t < k)
    (hk : k ≤ env.numberOfIterations) :
    (stateAfter env p k).mem.HoldsSample env t := by
  induction k with
  | zero => omega
  | succ k ih =>
    by_cases htk : t = k
    · subst htk
      have hc := stateAfter_capacity env p t
      simp only [Arrays.Capacity] at hc
      obtain ⟨c1, c2, c3, c4, c5, c6, c7, c8, c9, c10, c11, c12, c13⟩ := hc
      have hlt : t < env.numberOfIterations := by omega
      simp only [Arrays.HoldsSample, stateAfter, loopBody, stateAfter_iter, stateAfter_fpgaTime,
        stateAfter_oldPos, stateAfter_oldCPUTime, cumulativeDeviceTime, Finset.sum_range_succ]
      exact ⟨read_write_eq _ _ _ _ c1 hlt, read_write_eq _ _ _ _ c3 hlt,
        read_write_eq _ _ _ _ c4 hlt, read_write_eq _ _ _ _ c2 hlt,
        read_write_eq _ _ _ _ c5 hlt, read_write_eq _ _ _ _ c6 hlt,
        read_write_eq _ _ _ _ c7 hlt, read_write_eq _ _ _ _ c8 hlt,
        read_write_eq _ _ _ _ c9 hlt, read_write_eq _ _ _ _ c10 hlt,
        read_write_eq _ _ _ _ c11 hlt, read_write_eq _ _ _ _ c12 hlt,
        read_write_eq _ _ _ _ c13 hlt⟩
    · have ih := ih (by omega) (by omega)
      simp only [Arrays.HoldsSample] at ih ⊢
      simp only [stateAfter, loopBody, stateAfter_iter, read_write_ne _ _ _ _ htk]
      exact ih

/-! ## Progress dots -/

theorem ticks_setupTrace (env : Env) : ticks (setupTrace env) = 0 := by
  unfold ticks setupTrace
  cases env.warmupReadThrows <;> simp

theorem succ_div_mod (k p : Nat) (hp : 0 < p) :
    (k % p + 1 = p → (k + 1) % p = 0 ∧ (k + 1) / p = k / p + 1) ∧
    (k % p + 1 ≠ p → (k + 1) % p = k % p + 1 ∧ (k + 1) / p = k / p) := by
  have hdm := Nat.div_add_mod k p
  have hlt := Nat.mod_lt k hp
  constructor
  · intro h
    have hk : k + 1 = p * (k / p + 1) := by
      rw [Nat.mul_add, Nat.mul_one]
      omega
    rw [hk]
    exact ⟨Nat.mul_mod_right _ _, Nat.mul_div_cancel_left _ hp⟩
  · intro h
    have hlt2 : k % p + 1 < p := by omega
    have hk : k + 1 = p * (k / p) + (k % p + 1) := by omega
    constructor
    · conv_lhs => rw [hk]
      rw [Nat.mul_add_mod, Nat.mod_eq_of_lt hlt2]
    · conv_lhs => rw [hk]
      rw [Nat.mul_add_div hp, Nat.div_eq_of_lt hlt2, Nat.add_zero]

theorem stateAfter_progress (env : Env) (p k : Nat) (hp : 0 < p) :
    (stateAfter env p k).progress = k % p ∧ ticks (stateAfter env p k).trace = k / p := by
  induction k with
  | zero => simp [stateAfter, initState, ticks_setupTrace]
  | succ k ih =>
    obtain ⟨h1, h2⟩ := ih
    obtain ⟨heq, hne⟩ := succ_div_mod k p hp
    unfold ticks at h2 ⊢
    by_cases hc : k % p + 1 = p
    · obtain ⟨e1, e2⟩ := heq hc
      simp [stateAfter, loopBody, h1, h2, hc, e1, e2, List.count_append]
    · obtain ⟨e1, e2⟩ := hne hc
      simp [stateAfter, loopBody, h1, h2, hc, e1, e2, List.count_append]

theorem stateAfter_progress_zero (env : Env) (k : Nat) :
    (stateAfter env 0 k).progress = k ∧ ticks (stateAfter env 0 k).trace = 0 := by
  induction k with
  | zero => simp [stateAfter, initState, ticks_setupTrace]
  | succ k ih =>
    obtain ⟨h1, h2⟩ := ih
    unfold ticks at h2 ⊢
    simp [stateAfter, loopBody, h1, h2, List.count_append]

/-! ## The loops -/

theorem loop_completes (env : Env) (p n : Nat) :
    ∀ d k, k + d = n → (∀ j, k ≤ j → j < n → env.readThrows j = false) →
      acquisitionLoop env p n (stateAfter env p k)
        = LoopResult.completed (stateAfter env p n) := by
  intro d
  induction d with
  | zero =>
    intro k hk _
    have hkn : k = n := by omega
    subst hkn
    rw [acquisitionLoop]
    simp [stateAfter_iter]
  | succ d ih =>
    intro k hk h
    have hlt : k < n := by omega
    rw [acquisitionLoop]
    simp only [stateAfter_iter, hlt, if_true, h k (Nat.le_refl k) hlt,
      Bool.false_eq_true, if_false]
    exact ih (k + 1) (by omega) (fun j hj hjn => h j (by omega) hjn)

theorem loop_throws (env : Env) (p n m : Nat) (hm : m < n) (ht : env.readThrows m = true) :
    ∀ d k, k + d = m → (∀ j, k ≤ j → j < m → env.readThrows j = false) →
      ∃ st, acquisitionLoop env p n (stateAfter env p k) = LoopResult.thrown st ∧
        st.mem = (stateAfter env p m).mem ∧
        st.trace = (stateAfter env p m).trace ++ [Event.busRead m] := by
  intro d
  induction d with
  | zero =>
    intro k hk _
    have hkm : k = m := by omega
    subst hkm
    rw [acquisitionLoop]
    simp [stateAfter_iter, hm, ht]
  | succ d ih =>
    intro k hk h
    have hlt : k < n := by omega
    rw [acquisitionLoop]
    simp only [stateAfter_iter, hlt, if_true, h k (Nat.le_refl k) (by omega),
      Bool.false_eq_true, if_false]
    exact ih (k + 1) (by omega) (fun j hj hjn => h j (by omega) hjn)

theorem loop_result (env : Env) (p n : Nat) :
    (∃ m st, m < n ∧ env.readThrows m = true ∧ (∀ j, j < m → env.readThrows j = false) ∧
        acquisitionLoop env p n (initState env) = LoopResult.thrown st ∧
        st.mem = (stateAfter env p m).mem ∧
        st.trace = (stateAfter env p m).trace ++ [Event.busRead m]) ∨
    ((∀ j, j < n → env.readThrows j = false) ∧
        acquisitionLoop env p n (initState env) = LoopResult.completed (stateAfter env p n)) := by
  by_cases h : ∃ m, m < n ∧ env.readThrows m = true
  · left
    classical
    have hbefore : ∀ j, j < Nat.find h → env.readThrows j = false := by
      intro j hj
      have hmin := Nat.find_min h hj
      have hjn : j < n := Nat.lt_trans hj (Nat.find_spec h).1
      cases hr : env.readThrows j with
      | false => rfl
      | true => exact absurd ⟨hjn, hr⟩ hmin
    obtain ⟨st, h1, h2, h3⟩ :=
      loop_throws env p n (Nat.find h) (Nat.find_spec h).1 (Nat.find_spec h).2
        (Nat.find h) 0 (by omega) (fun j _ hj => hbefore j hj)
    exact ⟨Nat.find h, st, (Nat.find_spec h).1, (Nat.find_spec h).2, hbefore, h1, h2, h3⟩
  · right
    have hall : ∀ j, j < n → env.readThrows j = false := by
      intro j hj
      cases hr : env.readThrows j with
      | false => rfl
      | true => exact absurd ⟨j, hj, hr⟩ h
    exact ⟨hall, loop_completes env p n n 0 (by omega) (fun j _ hj => hall j hj)⟩

theorem csvLoop_eq (a : Arrays) (n : Nat) :
    ∀ d iter out, n - iter = d →
      csvLoop a n iter out = out ++ (List.range d).map (fun k => csvRow a (iter + k)) := by
  intro d
  induction d with
  | zero =>
    intro iter out h
    have hge : ¬ iter < n := by omega
    rw [csvLoop]
    simp [hge]
  | succ d ih =>
    intro iter out h
    have hlt : iter < n := by omega
    rw [csvLoop, if_pos hlt, ih (iter + 1) _ (by omega), List.range_succ_eq_map]
    simp [Function.comp_def, Nat.add_assoc, Nat.add_comm 1]

theorem loop_split (env : Env) (p n k : Nat) (hk : k ≤ n) :
    ∀ d st, k - st.iter = d →
      acquisitionLoop env p n st
        = match acquisitionLoop env p k st with
          | LoopResult.thrown s => LoopResult.thrown s
          | LoopResult.completed s => acquisitionLoop env p n s := by
  intro d
  induction d with
  | zero =>
    intro st h
    have hge : ¬ st.iter < k := by omega
    rw [acquisitionLoop.eq_1 env p k st]
    simp [hge]
  | succ d ih =>
    intro st h
    have hlt : st.iter < k := by omega
    have hltn : st.iter < n := by omega
    rw [acquisitionLoop.eq_1 env p k st, acquisitionLoop.eq_1 env p n st]
    cases hr : env.readThrows st.iter with
    | true => simp [hlt, hltn]
    | false =>
      simp only [hlt, hltn, if_true, Bool.false_eq_true, if_false]
      exact ih (loopBody env p st) (by simp only [loopBody]; omega)

theorem loop_resume (env : Env) (p n k : Nat) (hk : k ≤ n)
    (hread : ∀ j, j < k → env.readThrows j = false) :
    acquisitionLoop env p n (initState env)
      = acquisitionLoop env p n (stateAfter env p k) := by
  have hsplit := loop_split env p n k hk k (initState env) rfl
  have hrun := loop_completes env p k k 0 (by omega) (fun j _ hj => hread j hj)
  have hinit : stateAfter env p 0 = initState env := rfl
  rw [hinit] at hrun
  rw [hsplit, hrun]

theorem stateAfter_trace (env : Env) (p k : Nat) :
    ∃ l, (stateAfter env p k).trace = setupTrace env ++ l := by
  induction k with
  | zero => exact ⟨[], by simp [stateAfter, initState]⟩
  | succ k ih =>
    obtain ⟨l, hl⟩ := ih
    refine ⟨l ++ ([Event.busRead k]
      ++ (if (stateAfter env p k).progress + 1 = p then [Event.dot] else [])
      ++ [Event.sleep]), ?_⟩
    simp [stateAfter, loopBody, hl, stateAfter_iter]

/-! ## Runs of `main` -/

theorem main_nominal (env : Env) (h : env.Nominal) :
    main env =
      { status := Status.returned 0
        trace := (stateAfter env (env.numberOfIterations / 100) env.numberOfIterations).trace
          ++ [Event.save]
        mem := some (stateAfter env (env.numberOfIterations / 100) env.numberOfIterations).mem
        file := some
          { header := csvHeader
            rows := (List.range (env.numberOfIterations - 2000)).map (fun k =>
              csvRow (stateAfter env (env.numberOfIterations / 100) env.numberOfIterations).mem
                (2000 + k)) } } := by
  obtain ⟨hp, hc, hr, hread⟩ := h
  have hloop := loop_completes env (env.numberOfIterations / 100) env.numberOfIterations
    env.numberOfIterations 0 (by omega) (fun j _ hj => hread j hj)
  have hinit : stateAfter env (env.numberOfIterations / 100) 0 = initState env := rfl
  rw [hinit] at hloop
  unfold main
  simp only [hp, hc, hr, hloop]
  simp [csvLoop_eq _ _ _ 2000 [] rfl]

theorem main_thrown (env : Env) (h : env.Configured) (m : Nat) (hm : m < env.numberOfIterations)
    (ht : env.readThrows m = true) (hbefore : ∀ j, j < m → env.readThrows j = false) :
    (main env).status = Status.terminated ∧ (main env).file = none ∧
    (main env).mem = some (stateAfter env (env.numberOfIterations / 100) m).mem ∧
    (main env).trace
      = (stateAfter env (env.numberOfIterations / 100) m).trace ++ [Event.busRead m] := by
  obtain ⟨hp, hc, hr⟩ := h
  obtain ⟨st, h1, h2, h3⟩ := loop_throws env (env.numberOfIterations / 100)
    env.numberOfIterations m hm ht m 0 (by omega) (fun j _ hj => hbefore j hj)
  have hinit : stateAfter env (env.numberOfIterations / 100) 0 = initState env := rfl
  rw [hinit] at h1
  unfold main
  simp only [hp, hc, hr, h1]
  simp [h2, h3]

theorem main_mem (env : Env) (h : env.Configured) :
    ∃ m, m ≤ env.numberOfIterations ∧ (∀ j, j < m → env.readThrows j = false) ∧
      (m < env.numberOfIterations → env.readThrows m = true) ∧
      (main env).mem = some (stateAfter env (env.numberOfIterations / 100) m).mem := by
  rcases loop_result env (env.numberOfIterations / 100) env.numberOfIterations with
    ⟨m, st, hm, ht, hbefore, _, _, _⟩ | ⟨hall, _⟩
  · exact ⟨m, Nat.le_of_lt hm, hbefore, fun _ => ht, (main_thrown env h m hm ht hbefore).2.2.1⟩
  · refine ⟨env.numberOfIterations, Nat.le_refl _, hall, fun hlt => absurd hlt (Nat.lt_irrefl _),
      ?_⟩
    rw [main_nominal env ⟨h.1, h.2.1, h.2.2, hall⟩]

theorem main_entry (env : Env) (h : env.Configured) (t : Nat) (ht : t < env.numberOfIterations)
    (hread : ∀ j, j ≤ t → env.readThrows j = false) :
    ∃ a, (main env).mem = some a ∧ a.HoldsSample env t := by
  obtain ⟨m, hm, _, hthrow, hmem⟩ := main_mem env h
  have htm : t < m := by
    by_contra hcon
    have hmt : m ≤ t := Nat.le_of_not_lt hcon
    have h1 := hthrow (by omega)
    rw [hread m hmt] at h1
    exact Bool.false_ne_true h1
  exact ⟨_, hmem, stateAfter_holds env _ m t htm hm⟩

theorem main_ticks (env : Env) (h : env.Nominal) :
    ticks (main env).trace = env.numberOfIterations / (env.numberOfIterations / 100) := by
  rw [main_nominal env h]
  by_cases hp : 0 < env.numberOfIterations / 100
  · have h2 := (stateAfter_progress env _ env.numberOfIterations hp).2
    unfold ticks at h2 ⊢
    simp [List.count_append, h2]
  · have hz : env.numberOfIterations / 100 = 0 := by omega
    rw [hz]
    have h2 := (stateAfter_progress_zero env env.numberOfIterations).2
    unfold ticks at h2 ⊢
    simp [List.count_append, h2]

/-- A failure of the read before the loop is caught: the run goes on to the
loop and, when the reads of the loop return, to the end of `main`. -/
theorem warmup_failure_caught (env : Env) (h : env.Nominal) (hw : env.warmupReadThrows = true) :
    (main env).status = Status.returned 0 ∧ Event.caught ∈ (main env).trace ∧
    Event.start ∈ (main env).trace := by
  obtain ⟨l, hl⟩ := stateAfter_trace env (env.numberOfIterations / 100) env.numberOfIterations
  rw [main_nominal env h]
  refine ⟨rfl, ?_, ?_⟩ <;> simp [hl, setupTrace, hw]

/-! ## Read failures in the loop -/

/-- Claim C1, at a run of seven iterations whose read throws in iteration 5:
the exception leaves `main`, so the process is terminated, iteration 5 never
assigns its entries, iteration 6 is never started and no file is written. -/
theorem readFailure_terminates :
    envReadFail.Configured ∧ envReadFail.numberOfIterations = 7 ∧
    envReadFail.readThrows 5 = true ∧
    (main envReadFail).status = Status.terminated ∧
    (main envReadFail).file = none ∧
    Event.busRead 5 ∈ (main envReadFail).trace ∧
    Event.busRead 6 ∉ (main envReadFail).trace ∧
    ∃ a, (main envReadFail).mem = some a ∧ a.HoldsSample envReadFail 4 ∧
      a.Unwritten 5 ∧ a.Unwritten 6 := by
  have hc : envReadFail.Configured := ⟨rfl, rfl, rfl⟩
  have hbefore : ∀ j, j < 5 → envReadFail.readThrows j = false := by
    intro j hj
    have hne : j ≠ 5 := by omega
    simp [envReadFail, hne]
  obtain ⟨h1, h2, h3, h4⟩ := main_thrown envReadFail hc 5 (by decide) rfl hbefore
  refine ⟨hc, rfl, rfl, h1, h2, ?_, ?_, _, h3, ?_, ?_, ?_⟩
  · rw [h4]
    simp
  · rw [h4]
    simp [stateAfter, loopBody, initState, setupTrace]
  · exact stateAfter_holds envReadFail _ 5 4 (by decide) (by decide)
  · exact stateAfter_unwritten envReadFail _ 5 5 (by decide)
  · exact stateAfter_unwritten envReadFail _ 5 6 (by decide)

/-! ## Clock bookkeeping -/

/-- Claim C2: in every run that reaches iteration `t`, the drift stored for
iteration `t` is the host time of that iteration minus the sum of the device
elapsed times of iterations `0 .. t`. -/
theorem drift_eq (env : Env) (h : env.Configured) (t : Nat) (ht : t < env.numberOfIterations)
    (hread : ∀ j, j ≤ t → env.readThrows j = false) :
    ∃ a, (main env).mem = some a ∧
      read a.allTimesDiff t
        = some (Dbl.val ((env.reading t).cpuTime
            - ∑ j ∈ Finset.range (t + 1), (env.reading j).actuatorTimeStamp)) := by
  obtain ⟨a, hmem, hs⟩ := main_entry env h t ht hread
  exact ⟨a, hmem, hs.2.2.1⟩

theorem drift_eq_witness :
    (envRun 3).Configured ∧ 2 < (envRun 3).numberOfIterations ∧
    (∀ j, j ≤ 2 → (envRun 3).readThrows j = false) ∧
    ∃ a, (main (envRun 3)).mem = some a ∧
      read a.allTimesDiff 2
        = some (Dbl.val (((envRun 3).reading 2).cpuTime
            - ∑ j ∈ Finset.range (2 + 1), ((envRun 3).reading j).actuatorTimeStamp)) :=
  ⟨⟨rfl, rfl, rfl⟩, by decide, fun _ _ => rfl,
    drift_eq (envRun 3) ⟨rfl, rfl, rfl⟩ 2 (by decide) (fun _ _ => rfl)⟩

/-- Claim C3: in every run that reaches iteration `t` with a nonzero device
elapsed time, the device-time finite difference stored for iteration `t` is
`(p_t - p_(t-1)) / e_t + 0.01`, where the previous position is `0.0` for
`t = 0`. -/
theorem finiteDiff_eq (env : Env) (h : env.Configured) (t : Nat)
    (ht : t < env.numberOfIterations) (hread : ∀ j, j ≤ t → env.readThrows j = false)
    (he : (env.reading t).actuatorTimeStamp ≠ 0) :
    ∃ a, (main env).mem = some a ∧
      read a.allSoftwareDxDtFPGA t
        = some (Dbl.val (((env.reading t).encoderPosition
              - (if t = 0 then 0 else (env.reading (t - 1)).encoderPosition))
            / (env.reading t).actuatorTimeStamp + 0.01)) := by
  obtain ⟨a, hmem, hs⟩ := main_entry env h t ht hread
  refine ⟨a, hmem, ?_⟩
  rw [hs.2.2.2.2.2.2.2.2.1]
  simp [Dbl.quot, Dbl.plus, he, previousPosition]

theorem finiteDiff_eq_witness :
    (envRun 3).Configured ∧ 2 < (envRun 3).numberOfIterations ∧
    (∀ j, j ≤ 2 → (envRun 3).readThrows j = false) ∧
    ((envRun 3).reading 2).actuatorTimeStamp ≠ 0 ∧
    ∃ a, (main (envRun 3)).mem = some a ∧
      read a.allSoftwareDxDtFPGA 2
        = some (Dbl.val ((((envRun 3).reading 2).encoderPosition
              - (if 2 = 0 then 0 else ((envRun 3).reading (2 - 1)).encoderPosition))
            / ((envRun 3).reading 2).actuatorTimeStamp + 0.01)) :=
  ⟨⟨rfl, rfl, rfl⟩, by decide, fun _ _ => rfl, by simp [envRun, sampleReading],
    finiteDiff_eq (envRun 3) ⟨rfl, rfl, rfl⟩ 2 (by decide) (fun _ _ => rfl)
      (by simp [envRun, sampleReading])⟩

/-- Claim C9: when no device elapsed time is negative, the accumulator
`fpgaTime` is at least `0` after iteration 0, in every run whose first read
returns, and its value after iteration `t + 1` is at least its value after
iteration `t`, in every run that reaches iteration `t + 1`.  The state after
an iteration is the one in which the loop stopped there is left; the loop of
the whole run resumes from it. -/
theorem cumulative_mono (env : Env)
    (he : ∀ j, j < env.numberOfIterations → 0 ≤ (env.reading j).actuatorTimeStamp) :
    (0 < env.numberOfIterations → env.readThrows 0 = false →
      ∃ s0, afterIterations env 1 = LoopResult.completed s0 ∧
        acquisitionLoop env (env.numberOfIterations / 100) env.numberOfIterations
            (initState env)
          = acquisitionLoop env (env.numberOfIterations / 100) env.numberOfIterations s0 ∧
        0 ≤ s0.fpgaTime) ∧
    (∀ t, t + 1 < env.numberOfIterations → (∀ j, j ≤ t + 1 → env.readThrows j = false) →
      ∃ s1 s2, afterIterations env (t + 1) = LoopResult.completed s1 ∧
        afterIterations env (t + 2) = LoopResult.completed s2 ∧
        acquisitionLoop env (env.numberOfIterations / 100) env.numberOfIterations
            (initState env)
          = acquisitionLoop env (env.numberOfIterations / 100) env.numberOfIterations s1 ∧
        acquisitionLoop env (env.numberOfIterations / 100) env.numberOfIterations
            (initState env)
          = acquisitionLoop env (env.numberOfIterations / 100) env.numberOfIterations s2 ∧
        s1.fpgaTime ≤ s2.fpgaTime) := by
  have hrun : ∀ k, (∀ j, j < k → env.readThrows j = false) →
      afterIterations env k
        = LoopResult.completed (stateAfter env (env.numberOfIterations / 100) k) := by
    intro k hk
    exact loop_completes env _ k k 0 (by omega) (fun j _ hj => hk j hj)
  constructor
  · intro hn h0
    have hfirst : ∀ j, j < 1 → env.readThrows j = false := by
      intro j hj
      have hj0 : j = 0 := by omega
      rw [hj0]
      exact h0
    refine ⟨_, hrun 1 hfirst, loop_resume env _ _ 1 (by omega) hfirst, ?_⟩
    rw [stateAfter_fpgaTime]
    simpa using he 0 hn
  · intro t ht hread
    refine ⟨_, _, hrun (t + 1) (fun j hj => hread j (by omega)),
      hrun (t + 2) (fun j hj => hread j (by omega)),
      loop_resume env _ _ (t + 1) (by omega) (fun j hj => hread j (by omega)),
      loop_resume env _ _ (t + 2) (by omega) (fun j hj => hread j (by omega)), ?_⟩
    rw [stateAfter_fpgaTime, stateAfter_fpgaTime, Finset.sum_range_succ _ (t + 1)]
    have := he (t + 1) ht
    linarith

theorem cumulative_mono_witness :
    (∀ j, j < (envRun 3).numberOfIterations → 0 ≤ ((envRun 3).reading j).actuatorTimeStamp) ∧
    (0 < (envRun 3).numberOfIterations ∧ (envRun 3).readThrows 0 = false ∧
      ∃ s0, afterIterations (envRun 3) 1 = LoopResult.completed s0 ∧
        acquisitionLoop (envRun 3) ((envRun 3).numberOfIterations / 100)
            (envRun 3).numberOfIterations (initState (envRun 3))
          = acquisitionLoop (envRun 3) ((envRun 3).numberOfIterations / 100)
            (envRun 3).numberOfIterations s0 ∧
        0 ≤ s0.fpgaTime) ∧
    (1 + 1 < (envRun 3).numberOfIterations ∧
      (∀ j, j ≤ 1 + 1 → (envRun 3).readThrows j = false) ∧
      ∃ s1 s2, afterIterations (envRun 3) (1 + 1) = LoopResult.completed s1 ∧
        afterIterations (envRun 3) (1 + 2) = LoopResult.completed s2 ∧
        acquisitionLoop (envRun 3) ((envRun 3).numberOfIterations / 100)
            (envRun 3).numberOfIterations (initState (envRun 3))
          = acquisitionLoop (envRun 3) ((envRun 3).numberOfIterations / 100)
            (envRun 3).numberOfIterations s1 ∧
        acquisitionLoop (envRun 3) ((envRun 3).numberOfIterations / 100)
            (envRun 3).numberOfIterations (initState (envRun 3))
          = acquisitionLoop (envRun 3) ((envRun 3).numberOfIterations / 100)
            (envRun 3).numberOfIterations s2 ∧
        s1.fpgaTime ≤ s2.fpgaTime) :=
  ⟨fun _ _ => by simp [envRun, sampleReading],
    ⟨by decide, rfl,
      (cumulative_mono (envRun 3) (fun _ _ => by simp [envRun, sampleReading])).1
        (by decide) rfl⟩,
    ⟨by decide, fun _ _ => rfl,
      (cumulative_mono (envRun 3) (fun _ _ => by simp [envRun, sampleReading])).2 1
        (by decide) (fun _ _ => rfl)⟩⟩

/-! ## The CSV file -/

/-- Claim C4: a run that reaches the end of `main` writes the header and then
exactly `max(0, N - 2000)` data rows; none for `N = 1500` and 1000 for
`N = 3000`. -/
theorem row_count (env : Env) (h : env.Nominal) :
    ∃ f, (main env).file = some f ∧ f.header = csvHeader ∧
      (f.rows.length : Int) = max 0 ((env.numberOfIterations : Int) - 2000) ∧
      (env.numberOfIterations = 1500 → f.rows.length = 0) ∧
      (env.numberOfIterations = 3000 → f.rows.length = 1000) := by
  rw [main_nominal env h]
  refine ⟨_, rfl, rfl, ?_, ?_, ?_⟩
  · simp only [List.length_map, List.length_range]
    omega
  · intro hn
    simp [hn]
  · intro hn
    simp [hn]

theorem row_count_witness :
    (envRun 3000).Nominal ∧
    ∃ f, (main (envRun 3000)).file = some f ∧ f.header = csvHeader ∧
      (f.rows.length : Int) = max 0 (((envRun 3000).numberOfIterations : Int) - 2000) ∧
      ((envRun 3000).numberOfIterations = 1500 → f.rows.length = 0) ∧
      ((envRun 3000).numberOfIterations = 3000 → f.rows.length = 1000) :=
  ⟨⟨rfl, rfl, rfl, fun _ _ => rfl⟩, row_count (envRun 3000) ⟨rfl, rfl, rfl, fun _ _ => rfl⟩⟩

/-- Claim C8: in a run that reaches the end of `main`, every index `i < N`
holds iteration value `i`, and data row `k` is the row of index `2000 + k`,
whose first field is `2000 + k`. -/
theorem row_iteration (env : Env) (h : env.Nominal) (k : Nat)
    (hk : 2000 + k < env.numberOfIterations) :
    ∃ f a, (main env).file = some f ∧ (main env).mem = some a ∧
      (∀ i, i < env.numberOfIterations → read a.allIterations i = some i) ∧
      f.rows[k]? = some (csvRow a (2000 + k)) ∧
      (csvRow a (2000 + k))[0]? = some (some (Value.size (2000 + k))) := by
  rw [main_nominal env h]
  refine ⟨_, _, rfl, rfl, ?_, ?_, ?_⟩
  · intro i hi
    exact (stateAfter_holds env _ _ i hi (Nat.le_refl _)).1
  · have hlt : k < env.numberOfIterations - 2000 := by omega
    simp [List.getElem?_map, List.getElem?_range hlt]
  · have h1 := (stateAfter_holds env (env.numberOfIterations / 100) _ (2000 + k) hk
      (Nat.le_refl _)).1
    simp [csvRow, h1]

theorem row_iteration_witness :
    (envRun 3000).Nominal ∧ 2000 + 0 < (envRun 3000).numberOfIterations ∧
    ∃ f a, (main (envRun 3000)).file = some f ∧ (main (envRun 3000)).mem = some a ∧
      (∀ i, i < (envRun 3000).numberOfIterations → read a.allIterations i = some i) ∧
      f.rows[0]? = some (csvRow a (2000 + 0)) ∧
      (csvRow a (2000 + 0))[0]? = some (some (Value.size (2000 + 0))) :=
  ⟨⟨rfl, rfl, rfl, fun _ _ => rfl⟩, by decide,
    row_iteration (envRun 3000) ⟨rfl, rfl, rfl, fun _ _ => rfl⟩ 0 (by decide)⟩

/-- Claim C10: the header has thirteen columns, with `fpga-time` third and
`fpga-dtime` fourth; every data row has thirteen fields, and the row of index
`i = 2000 + k` is: iteration, host time, drift (host time minus cumulative
device time), device elapsed time, encoder position, the three device
velocities, the two finite differences, the latch flag and the two raw
quadlets. -/
theorem row_layout (env : Env) (h : env.Nominal) (k : Nat)
    (hk : 2000 + k < env.numberOfIterations) :
    ∃ f, (main env).file = some f ∧
      f.header.length = 13 ∧ f.header[2]? = some "fpga-time" ∧
      f.header[3]? = some "fpga-dtime" ∧
      (∀ row, row ∈ f.rows → row.length = f.header.length) ∧
      f.rows[k]? = some
        [ some (Value.size (2000 + k)),
          some (Value.real (Dbl.val (env.reading (2000 + k)).cpuTime)),
          some (Value.real (Dbl.val ((env.reading (2000 + k)).cpuTime
            - ∑ j ∈ Finset.range (2000 + k + 1), (env.reading j).actuatorTimeStamp))),
          some (Value.real (Dbl.val (env.reading (2000 + k)).actuatorTimeStamp)),
          some (Value.real (Dbl.val (env.reading (2000 + k)).encoderPosition)),
          some (Value.real (Dbl.val (env.reading (2000 + k)).encoderVelocity)),
          some (Value.real (Dbl.val (env.reading (2000 + k)).encoderVelocityLowRes)),
          some (Value.real (Dbl.val (env.reading (2000 + k)).encoderVelocitySoftware)),
          some (Value.real (Dbl.plus (Dbl.quot
            ((env.reading (2000 + k)).encoderPosition - (env.reading (1999 + k)).encoderPosition)
            (env.reading (2000 + k)).actuatorTimeStamp) 0.01)),
          some (Value.real (Dbl.quot
            ((env.reading (2000 + k)).encoderPosition - (env.reading (1999 + k)).encoderPosition)
            ((env.reading (2000 + k)).cpuTime - (env.reading (1999 + k)).cpuTime))),
          some (Value.flag (env.reading (2000 + k)).encoderVelocityLatched),
          some (Value.quadlet (env.reading (2000 + k)).encoderVelocityRaw),
          some (Value.quadlet (env.reading (2000 + k)).encoderVelocityLowResRaw) ] := by
  rw [main_nominal env h]
  refine ⟨_, rfl, ?_, ?_, ?_, ?_, ?_⟩
  · simp [csvHeader]
  · simp [csvHeader]
  · simp [csvHeader]
  · intro row hrow
    dsimp only at hrow
    rw [List.mem_map] at hrow
    obtain ⟨i, _, hi⟩ := hrow
    rw [← hi]
    simp [csvRow, csvHeader]
  · have hlt : k < env.numberOfIterations - 2000 := by omega
    obtain ⟨h1, h2, h3, h4, h5, h6, h7, h8, h9, h10, h11, h12, h13⟩ :=
      stateAfter_holds env (env.numberOfIterations / 100) _ (2000 + k) hk (Nat.le_refl _)
    have hprev : 2000 + k - 1 = 1999 + k := by omega
    have hnz : 2000 + k ≠ 0 := by omega
    simp only [previousPosition, previousCPUTime, cumulativeDeviceTime, if_neg hnz, hprev]
      at h3 h9 h10
    simp only [List.getElem?_map, List.getElem?_range hlt, Option.map_some', csvRow,
      h1, h2, h3, h4, h5, h6, h7, h8, h9, h10, h11, h12, h13]

theorem row_layout_witness :
    (envRun 3000).Nominal ∧ 2000 + 7 < (envRun 3000).numberOfIterations ∧
    ∃ f, (main (envRun 3000)).file = some f ∧
      f.header.length = 13 ∧ f.header[2]? = some "fpga-time" ∧
      f.header[3]? = some "fpga-dtime" ∧
      (∀ row, row ∈ f.rows → row.length = f.header.length) ∧
      f.rows[7]? = some
        [ some (Value.size (2000 + 7)),
          some (Value.real (Dbl.val ((envRun 3000).reading (2000 + 7)).cpuTime)),
          some (Value.real (Dbl.val (((envRun 3000).reading (2000 + 7)).cpuTime
            - ∑ j ∈ Finset.range (2000 + 7 + 1), ((envRun 3000).reading j).actuatorTimeStamp))),
          some (Value.real (Dbl.val ((envRun 3000).reading (2000 + 7)).actuatorTimeStamp)),
          some (Value.real (Dbl.val ((envRun 3000).reading (2000 + 7)).encoderPosition)),
          some (Value.real (Dbl.val ((envRun 3000).reading (2000 + 7)).encoderVelocity)),
          some (Value.real (Dbl.val ((envRun 3000).reading (2000 + 7)).encoderVelocityLowRes)),
          some (Value.real (Dbl.val ((envRun 3000).reading (2000 + 7)).encoderVelocitySoftware)),
          some (Value.real (Dbl.plus (Dbl.quot
            (((envRun 3000).reading (2000 + 7)).encoderPosition
              - ((envRun 3000).reading (1999 + 7)).encoderPosition)
            ((envRun 3000).reading (2000 + 7)).actuatorTimeStamp) 0.01)),
          some (Value.real (Dbl.quot
            (((envRun 3000).reading (2000 + 7)).encoderPosition
              - ((envRun 3000).reading (1999 + 7)).encoderPosition)
            (((envRun 3000).reading (2000 + 7)).cpuTime
              - ((envRun 3000).reading (1999 + 7)).cpuTime))),
          some (Value.flag ((envRun 3000).reading (2000 + 7)).encoderVelocityLatched),
          some (Value.quadlet ((envRun 3000).reading (2000 + 7)).encoderVelocityRaw),
          some (Value.quadlet ((envRun 3000).reading (2000 + 7)).encoderVelocityLowResRaw) ] :=
  ⟨⟨rfl, rfl, rfl, fun _ _ => rfl⟩, by decide,
    row_layout (envRun 3000) ⟨rfl, rfl, rfl, fun _ _ => rfl⟩ 7 (by decide)⟩

/-! ## Progress dots of a whole run -/

/-- Claim C5, as stated, fails for `N = 100`: the run emits 100 dots, while
`floor(N / 100)` is 1. -/
theorem ticks_hundred :
    (envRun 100).Nominal ∧ 100 ≤ (envRun 100).numberOfIterations ∧
    ticks (main (envRun 100)).trace = 100 ∧
    ticks (main (envRun 100)).trace ≠ (envRun 100).numberOfIterations / 100 := by
  have h := main_ticks (envRun 100) ⟨rfl, rfl, rfl, fun _ _ => rfl⟩
  have hn : (envRun 100).numberOfIterations = 100 := rfl
  rw [hn] at h
  have h100 : ticks (main (envRun 100)).trace = 100 := by
    rw [h]
  refine ⟨⟨rfl, rfl, rfl, fun _ _ => rfl⟩, by decide, h100, ?_⟩
  rw [h100, hn]
  decide

/-- Claim C5, amended: a run that reaches the end of `main` emits one dot
every `floor(N / 100)` iterations, hence `floor(N / floor(N / 100))` dots, at
least 100, when `N ≥ 100`; it emits none when `N < 100`. -/
theorem tick_count (env : Env) (h : env.Nominal) :
    (100 ≤ env.numberOfIterations →
      ticks (main env).trace = env.numberOfIterations / (env.numberOfIterations / 100) ∧
      100 ≤ ticks (main env).trace) ∧
    (env.numberOfIterations < 100 → ticks (main env).trace = 0) := by
  have ht := main_ticks env h
  constructor
  · intro hn
    have hpos : 0 < env.numberOfIterations / 100 := Nat.div_pos hn (by decide)
    refine ⟨ht, ?_⟩
    rw [ht, Nat.le_div_iff_mul_le hpos, Nat.mul_comm]
    exact Nat.div_mul_le_self _ _
  · intro hn
    rw [ht, Nat.div_eq_of_lt hn, Nat.div_zero]

theorem tick_count_witness :
    (envRun 250).Nominal ∧
    (100 ≤ (envRun 250).numberOfIterations →
      ticks (main (envRun 250)).trace
        = (envRun 250).numberOfIterations / ((envRun 250).numberOfIterations / 100) ∧
      100 ≤ ticks (main (envRun 250)).trace) ∧
    ((envRun 250).numberOfIterations < 100 → ticks (main (envRun 250)).trace = 0) :=
  ⟨⟨rfl, rfl, rfl, fun _ _ => rfl⟩, tick_count (envRun 250) ⟨rfl, rfl, rfl, fun _ _ => rfl⟩⟩

/-! ## Configuration errors -/

/-- Claim C6, as stated, fails for a configuration without robot: `main`
returns -1 only after the thirteen arrays have been allocated. -/
theorem configError_allocates :
    envNoRobot.ConfigError ∧
    (main envNoRobot).status = Status.returned (-1) ∧
    Event.allocate 3 ∈ (main envNoRobot).trace ∧
    (main envNoRobot).mem ≠ none := by
  refine ⟨Or.inr (Or.inl rfl), ?_, ?_, ?_⟩ <;> simp [main, envNoRobot, envRun]

/-- Claim C6, amended: on every configuration error `main` returns -1 (exit
status 255) before the loop starts and without writing a file; when the file
is missing nothing has been allocated; when the file exists and defines no
robot or several, the arrays have already been allocated. -/
theorem configError_exit (env : Env) (h : env.ConfigError) :
    (main env).status = Status.returned (-1) ∧
    (main env).status.exitStatus = some 255 ∧
    Event.start ∉ (main env).trace ∧ (∀ j, Event.busRead j ∉ (main env).trace) ∧
    (main env).file = none ∧
    (env.configExists = false →
      (∀ n, Event.allocate n ∉ (main env).trace) ∧ (main env).mem = none) ∧
    (env.parseOk = true → env.configExists = true →
      Event.allocate env.numberOfIterations ∈ (main env).trace ∧
      (main env).mem = some (Arrays.fresh env.numberOfIterations)) := by
  unfold main
  cases hp : env.parseOk with
  | false => simp [Status.exitStatus]
  | true =>
    cases hc : env.configExists with
    | false => simp [Status.exitStatus]
    | true =>
      by_cases h0 : env.robots = 0
      · simp [h0, Status.exitStatus]
      · have h1 : env.robots ≠ 1 := by
          rcases h with h | h | h
          · rw [hc] at h
            exact absurd h (by decide)
          · exact absurd h h0
          · omega
        simp [h0, h1, Status.exitStatus]

theorem configError_exit_witness :
    envNoFile.ConfigError ∧
    (main envNoFile).status = Status.returned (-1) ∧
    (main envNoFile).status.exitStatus = some 255 ∧
    Event.start ∉ (main envNoFile).trace ∧ (∀ j, Event.busRead j ∉ (main envNoFile).trace) ∧
    (main envNoFile).file = none ∧
    (envNoFile.configExists = false →
      (∀ n, Event.allocate n ∉ (main envNoFile).trace) ∧ (main envNoFile).mem = none) ∧
    (envNoFile.parseOk = true → envNoFile.configExists = true →
      Event.allocate envNoFile.numberOfIterations ∈ (main envNoFile).trace ∧
      (main envNoFile).mem = some (Arrays.fresh envNoFile.numberOfIterations)) :=
  ⟨Or.inl rfl, configError_exit envNoFile (Or.inl rfl)⟩

/-! ## A run without samples -/

/-- Claim C7, as stated, fails: with `N = 0` and a valid configuration the
arrays are allocated with no entry, the file is written and `main` returns
0. -/
theorem zeroCapacity_succeeds :
    (envRun 0).Configured ∧ (envRun 0).numberOfIterations = 0 ∧
    (main (envRun 0)).status = Status.returned 0 ∧
    (main (envRun 0)).status.exitStatus = some 0 ∧
    Event.allocate 0 ∈ (main (envRun 0)).trace ∧
    Event.save ∈ (main (envRun 0)).trace := by
  rw [main_nominal (envRun 0) ⟨rfl, rfl, rfl, fun _ _ => rfl⟩]
  refine ⟨⟨rfl, rfl, rfl⟩, rfl, rfl, rfl, ?_, ?_⟩
  · simp [envRun, stateAfter, initState, setupTrace]
  · simp

/-- Claim C7, amended: with `N = 0` and a valid configuration nothing fails:
the arrays are allocated with no entry, the loop body is never run, the file
holds the header and no data row, and `main` returns 0. -/
theorem zero_samples_run (env : Env) (h : env.Configured) (h0 : env.numberOfIterations = 0) :
    (main env).status = Status.returned 0 ∧
    (main env).trace = setupTrace env ++ [Event.save] ∧
    Event.allocate 0 ∈ (main env).trace ∧
    (∀ j, Event.busRead j ∉ (main env).trace) ∧
    ∃ f, (main env).file = some f ∧ f.header = csvHeader ∧ f.rows = [] := by
  have hn : env.Nominal := by
    refine ⟨h.1, h.2.1, h.2.2, ?_⟩
    intro j hj
    omega
  rw [main_nominal env hn, h0]
  refine ⟨rfl, rfl, ?_, ?_, _, rfl, rfl, rfl⟩
  · simp [stateAfter, initState, setupTrace, h0]
  · intro j
    cases hw : env.warmupReadThrows <;> simp [stateAfter, initState, setupTrace, hw]

theorem zero_samples_run_witness :
    (envRun 0).Configured ∧ (envRun 0).numberOfIterations = 0 ∧
    (main (envRun 0)).status = Status.returned 0 ∧
    (main (envRun 0)).trace = setupTrace (envRun 0) ++ [Event.save] ∧
    Event.allocate 0 ∈ (main (envRun 0)).trace ∧
    (∀ j, Event.busRead j ∉ (main (envRun 0)).trace) ∧
    ∃ f, (main (envRun 0)).file = some f ∧ f.header = csvHeader ∧ f.rows = [] :=
  ⟨⟨rfl, rfl, rfl⟩, rfl, zero_samples_run (envRun 0) ⟨rfl, rfl, rfl⟩ rfl⟩

end DataCollection
